import Mathlib

/-!
Verification of the booking-management core of the Event Management System
(`src/event.py`).  Python dictionaries are modelled as insertion-ordered
association lists, Python `int` as `Int`, Python lists as `List`, and the
JSON persistence document as an inductive `Json` type.  Floating-point
occupancy arithmetic is modelled by exact rationals.
-/

set_option maxHeartbeats 1000000

namespace EMS

/-! ### Insertion-ordered dictionaries (Python `dict`)

`dictInsert` models `d[k] = v`: it overwrites in place when the key is
present (keeping its position) and appends at the end when it is new, which
is exactly CPython's insertion-order semantics.  `dictGet` models `d[k]` /
`k in d` lookups. -/

def dictGet {β : Type} (k : String) : List (String × β) → Option β
  | [] => none
  | (k2, v) :: rest => if k = k2 then some v else dictGet k rest

def dictInsert {β : Type} (k : String) (v : β) : List (String × β) → List (String × β)
  | [] => [(k, v)]
  | (k2, v2) :: rest => if k = k2 then (k, v) :: rest else (k2, v2) :: dictInsert k v rest

theorem dictGet_insert_self {β : Type} (k : String) (v : β) (d : List (String × β)) :
    dictGet k (dictInsert k v d) = some v := by
  induction d with
  | nil => simp [dictGet, dictInsert]
  | cons p rest ih =>
    by_cases h : k = p.1
    · simp [dictGet, dictInsert, h]
    · simp [dictGet, dictInsert, h, ih]

theorem dictGet_insert_ne {β : Type} {k k2 : String} (v : β) (d : List (String × β))
    (h : k2 ≠ k) : dictGet k2 (dictInsert k v d) = dictGet k2 d := by
  induction d with
  | nil => simp [dictGet, dictInsert, h]
  | cons p rest ih =>
    by_cases hk : k = p.1
    · subst hk
      simp [dictGet, dictInsert, h]
    · by_cases hk2 : k2 = p.1 <;> simp [dictGet, dictInsert, hk, hk2, ih]

theorem dictGet_isSome_iff_mem {β : Type} (k : String) (d : List (String × β)) :
    (dictGet k d).isSome ↔ k ∈ d.map Prod.fst := by
  induction d with
  | nil => simp [dictGet]
  | cons p rest ih =>
    by_cases h : k = p.1 <;> simp [dictGet, h, ih]

theorem dictGet_eq_none_iff {β : Type} (k : String) (d : List (String × β)) :
    dictGet k d = none ↔ k ∉ d.map Prod.fst := by
  rw [← dictGet_isSome_iff_mem]
  cases dictGet k d <;> simp

theorem dictInsert_of_not_mem {β : Type} {k : String} (v : β) {d : List (String × β)}
    (h : k ∉ d.map Prod.fst) : dictInsert k v d = d ++ [(k, v)] := by
  induction d with
  | nil => simp [dictInsert]
  | cons p rest ih =>
    simp only [List.map_cons, List.mem_cons] at h
    push_neg at h
    simp [dictInsert, h.1, ih h.2]

theorem keys_dictInsert_mem {β : Type} {k : String} (v : β) {d : List (String × β)}
    (h : k ∈ d.map Prod.fst) :
    (dictInsert k v d).map Prod.fst = d.map Prod.fst := by
  induction d with
  | nil => simp at h
  | cons p rest ih =>
    simp only [List.map_cons, List.mem_cons] at h
    by_cases hk : k = p.1
    · simp [dictInsert, hk]
    · rcases h with h | h
      · exact absurd h hk
      · simp [dictInsert, hk, ih h]

theorem dictGet_insert_isSome {β : Type} {k k2 : String} (v : β) (d : List (String × β))
    (h : (dictGet k2 d).isSome) : (dictGet k2 (dictInsert k v d)).isSome := by
  by_cases hk : k2 = k
  · subst hk
    simp [dictGet_insert_self]
  · rwa [dictGet_insert_ne v d hk]

theorem dictGet_of_mem_of_nodup {β : Type} {d : List (String × β)}
    (hnd : (d.map Prod.fst).Nodup) {p : String × β} (hp : p ∈ d) :
    dictGet p.1 d = some p.2 := by
  induction d with
  | nil => simp at hp
  | cons q rest ih =>
    simp only [List.map_cons, List.nodup_cons] at hnd
    rcases List.mem_cons.mp hp with h | h
    · subst h
      simp [dictGet]
    · have hne : p.1 ≠ q.1 := by
        intro he
        exact hnd.1 (he ▸ List.mem_map_of_mem Prod.fst h)
      simp [dictGet, hne, ih hnd.2 h]

/-! ### Decimal formatting of identifiers

`f"EVT{n + 1:04d}"` in the source: the decimal digits of the number,
left-padded with character zeros to a minimum width of four. -/

def digitsRevAux : Nat → Nat → List Nat
  | 0, _ => []
  | fuel + 1, n => if n < 10 then [n] else n % 10 :: digitsRevAux fuel (n / 10)

/-- Decimal digits of `n`, least-significant first. -/
def digitsRev (n : Nat) : List Nat := digitsRevAux (n + 1) n

theorem digitsRevAux_fuel_irrel : ∀ n f1 f2, n < f1 → n < f2 →
    digitsRevAux f1 n = digitsRevAux f2 n := by
  intro n
  induction n using Nat.strong_induction_on with
  | _ n ih =>
    intro f1 f2 h1 h2
    match f1, f2 with
    | g1 + 1, g2 + 1 =>
      by_cases h : n < 10
      · simp [digitsRevAux, h]
      · have h10 : 10 ≤ n := Nat.le_of_not_lt h
        have hlt : n / 10 < n := Nat.div_lt_self (by omega) (by omega)
        simp only [digitsRevAux, h, if_false]
        have := ih (n / 10) hlt g1 g2 (by omega) (by omega)
        rw [this]

theorem digitsRev_eq (n : Nat) :
    digitsRev n = if n < 10 then [n] else n % 10 :: digitsRev (n / 10) := by
  by_cases h : n < 10
  · simp [digitsRev, digitsRevAux, h]
  · have h10 : 10 ≤ n := Nat.le_of_not_lt h
    have hlt : n / 10 < n := Nat.div_lt_self (by omega) (by omega)
    have step : digitsRevAux (n + 1) n = n % 10 :: digitsRevAux n (n / 10) := by
      simp only [digitsRevAux]
      simp [h]
    show digitsRevAux (n + 1) n = _
    rw [step, digitsRevAux_fuel_irrel (n / 10) n (n / 10 + 1) (by omega) (by omega),
      if_neg h]
    rfl

def ofDigitsRev : List Nat → Nat
  | [] => 0
  | d :: ds => d + 10 * ofDigitsRev ds

theorem ofDigitsRev_digitsRev : ∀ n, ofDigitsRev (digitsRev n) = n := by
  intro n
  induction n using Nat.strong_induction_on with
  | _ n ih =>
    rw [digitsRev_eq]
    by_cases h : n < 10
    · simp [h, ofDigitsRev]
    · have hlt : n / 10 < n := Nat.div_lt_self (by omega) (by omega)
      simp only [h, if_false, ofDigitsRev, ih (n / 10) hlt]
      omega

theorem digitsRev_injective {a b : Nat} (h : digitsRev a = digitsRev b) : a = b := by
  have := congrArg ofDigitsRev h
  rwa [ofDigitsRev_digitsRev, ofDigitsRev_digitsRev] at this

theorem digitsRev_ne_nil (n : Nat) : digitsRev n ≠ [] := by
  rw [digitsRev_eq]
  by_cases h : n < 10 <;> simp [h]

theorem digitsRev_lt_ten : ∀ n, ∀ d ∈ digitsRev n, d < 10 := by
  intro n
  induction n using Nat.strong_induction_on with
  | _ n ih =>
    rw [digitsRev_eq]
    by_cases h : n < 10
    · simp [h]
    · have hlt : n / 10 < n := Nat.div_lt_self (by omega) (by omega)
      simp only [h, if_false]
      intro d hd
      rcases List.mem_cons.mp hd with h1 | h1
      · omega
      · exact ih (n / 10) hlt d h1

theorem digitsRev_reverse_head (n : Nat) (hn : 0 < n) :
    ∃ d ds, (digitsRev n).reverse = d :: ds ∧ d ≠ 0 := by
  induction n using Nat.strong_induction_on with
  | _ n ih =>
    rw [digitsRev_eq]
    by_cases h : n < 10
    · exact ⟨n, [], by simp [h], by omega⟩
    · have hlt : n / 10 < n := Nat.div_lt_self (by omega) (by omega)
      have hpos : 0 < n / 10 := Nat.div_pos (by omega) (by omega)
      obtain ⟨d, ds, hds, hd⟩ := ih (n / 10) hlt hpos
      exact ⟨d, ds ++ [n % 10], by simp [h, hds], hd⟩

/-- The decimal digit characters of `n`, most-significant first. -/
def toChars (n : Nat) : List Char := ((digitsRev n).reverse).map Nat.digitChar

/-- Python `f"{ n:04d}"` formatting: the decimal digits left-padded with zeros to width 4. -/
def pad4Chars (n : Nat) : List Char :=
  List.replicate (4 - (toChars n).length) '0' ++ toChars n

/-- The generated identifier string: a namespace marker followed by the
zero-padded sequence number, as in `f"EVT{ n:04d}"`. -/
def genId (pfx : String) (n : Nat) : String := pfx ++ String.mk (pad4Chars n)

theorem digitChar_inj_lt : ∀ d, d < 10 → ∀ e, e < 10 →
    Nat.digitChar d = Nat.digitChar e → d = e := by decide

theorem map_digitChar_inj : ∀ xs ys : List Nat, (∀ d ∈ xs, d < 10) → (∀ d ∈ ys, d < 10) →
    xs.map Nat.digitChar = ys.map Nat.digitChar → xs = ys := by
  intro xs
  induction xs with
  | nil =>
    intro ys _ _ h
    cases ys with
    | nil => rfl
    | cons y yt => simp at h
  | cons x xt ih =>
    intro ys hx hy h
    cases ys with
    | nil => simp at h
    | cons y yt =>
      simp only [List.map_cons, List.cons.injEq] at h
      have hxy : x = y :=
        digitChar_inj_lt x (hx x (List.mem_cons_self x xt)) y (hy y (List.mem_cons_self y yt)) h.1
      have ht : xt = yt :=
        ih yt (fun d hd => hx d (List.mem_cons_of_mem x hd))
          (fun d hd => hy d (List.mem_cons_of_mem y hd)) h.2
      rw [hxy, ht]

theorem toChars_injective {a b : Nat} (h : toChars a = toChars b) : a = b := by
  apply digitsRev_injective
  have hrev : (digitsRev a).reverse = (digitsRev b).reverse :=
    map_digitChar_inj _ _
      (fun d hd => digitsRev_lt_ten a d (List.mem_reverse.mp hd))
      (fun d hd => digitsRev_lt_ten b d (List.mem_reverse.mp hd)) h
  exact List.reverse_injective hrev

theorem toChars_ne_nil (n : Nat) : toChars n ≠ [] := by
  simp [toChars, digitsRev_ne_nil]

theorem toChars_head_ne_zero (n : Nat) (hn : 0 < n) :
    ∃ c cs, toChars n = c :: cs ∧ c ≠ '0' := by
  obtain ⟨d, ds, hds, hd⟩ := digitsRev_reverse_head n hn
  refine ⟨Nat.digitChar d, ds.map Nat.digitChar, by simp [toChars, hds], ?_⟩
  intro hc
  have hd10 : d < 10 := by
    apply digitsRev_lt_ten n
    rw [← List.mem_reverse, hds]
    exact List.mem_cons_self d ds
  exact hd (digitChar_inj_lt d hd10 0 (by omega) (by simpa using hc))

theorem zero_pad_cancel : ∀ (p q : Nat) (A B : List Char),
    (∀ c cs, A = c :: cs → c ≠ '0') → (∀ c cs, B = c :: cs → c ≠ '0') →
    A ≠ [] → B ≠ [] →
    List.replicate p '0' ++ A = List.replicate q '0' ++ B → A = B := by
  intro p
  induction p with
  | zero =>
    intro q A B hA hB hAn hBn h
    cases q with
    | zero => simpa using h
    | succ q2 =>
      match A, hAn with
      | a :: A2, _ =>
        simp only [List.replicate_zero, List.replicate_succ, List.nil_append,
          List.cons_append, List.cons.injEq] at h
        exact absurd h.1 (hA a A2 rfl)
  | succ p2 ih =>
    intro q A B hA hB hAn hBn h
    cases q with
    | zero =>
      match B, hBn with
      | b :: B2, _ =>
        simp only [List.replicate_zero, List.replicate_succ, List.nil_append,
          List.cons_append, List.cons.injEq] at h
        exact absurd h.1.symm (hB b B2 rfl)
    | succ q2 =>
      simp only [List.replicate_succ, List.cons_append, List.cons.injEq] at h
      exact ih q2 A B hA hB hAn hBn h.2

theorem pad4Chars_injective {a b : Nat} (ha : 0 < a) (hb : 0 < b)
    (h : pad4Chars a = pad4Chars b) : a = b := by
  apply toChars_injective
  obtain ⟨ca, csa, hca, hcane⟩ := toChars_head_ne_zero a ha
  obtain ⟨cb, csb, hcb, hcbne⟩ := toChars_head_ne_zero b hb
  refine zero_pad_cancel (4 - (toChars a).length) (4 - (toChars b).length)
    (toChars a) (toChars b) ?_ ?_ (toChars_ne_nil a) (toChars_ne_nil b) h
  · intro c cs hcs
    rw [hca] at hcs
    exact (List.cons.injEq _ _ _ _ ▸ hcs).1 ▸ hcane
  · intro c cs hcs
    rw [hcb] at hcs
    exact (List.cons.injEq _ _ _ _ ▸ hcs).1 ▸ hcbne

theorem str_append_cancel {p x y : String} (h : p ++ x = p ++ y) : x = y := by
  have hd : p.data ++ x.data = p.data ++ y.data := by
    have h2 := congrArg String.data h
    simpa [String.data_append] using h2
  apply String.ext
  exact List.append_cancel_left hd

theorem genId_injective {pfx : String} {a b : Nat} (ha : 0 < a) (hb : 0 < b)
    (h : genId pfx a = genId pfx b) : a = b := by
  apply pad4Chars_injective ha hb
  have h2 : String.mk (pad4Chars a) = String.mk (pad4Chars b) := str_append_cancel h
  exact congrArg String.data h2

/-! ### Data model (`class Attendee`, `class Event`, `class EventManagementSystem`) -/

/-- Source `class Attendee` of `src/event.py`: `__init__` sets the four scalar fields
and `registered_events = []`. -/
structure Attendee where
  attendee_id : String
  name : String
  email : String
  phone : String
  registered_events : List String
deriving DecidableEq

/-- Source `class Event` of `src/event.py`: `__init__` sets the eight scalar fields
and `registered_attendees = []`.  `capacity` is a Python `int`, hence `Int`
(the code never validates positivity). -/
structure Event where
  event_id : String
  title : String
  description : String
  date : String
  time : String
  venue : String
  capacity : Int
  category : String
  registered_attendees : List String
deriving DecidableEq

/-- Source `Event.is_full`: `len(self.registered_attendees) >= self.capacity`. -/
def Event.is_full (e : Event) : Bool :=
  decide (e.capacity ≤ (e.registered_attendees.length : Int))

/-- Source `Event.get_available_seats`: `self.capacity - len(self.registered_attendees)`. -/
def Event.get_available_seats (e : Event) : Int :=
  e.capacity - (e.registered_attendees.length : Int)

/-- Source `class EventManagementSystem`: the two insertion-ordered dictionaries
`self.events` and `self.attendees`. -/
structure EventManagementSystem where
  events : List (String × Event)
  attendees : List (String × Attendee)
deriving DecidableEq

/-- Source `EventManagementSystem.__init__`: both dictionaries start empty. -/
def emptySystem : EventManagementSystem := ⟨[], []⟩

/-- Source `create_event`: allocates `f"EVT..."` from the current event count,
builds the `Event` and stores it; returns the new identifier. -/
def create_event (s : EventManagementSystem) (title description date time venue : String)
    (capacity : Int) (category : String) : String × EventManagementSystem :=
  let event_id := genId "EVT" (s.events.length + 1)
  let event : Event := ⟨event_id, title, description, date, time, venue, capacity, category, []⟩
  (event_id, { s with events := dictInsert event_id event s.events })

/-- Source `register_attendee`: allocates `f"ATT..."` from the current attendee
count, builds the `Attendee` and stores it; returns the new identifier. -/
def register_attendee (s : EventManagementSystem) (name email phone : String) :
    String × EventManagementSystem :=
  let attendee_id := genId "ATT" (s.attendees.length + 1)
  let attendee : Attendee := ⟨attendee_id, name, email, phone, []⟩
  (attendee_id, { s with attendees := dictInsert attendee_id attendee s.attendees })

/-- The outcome of `book_event`; each failure constructor corresponds to one
of the four distinct error messages printed before `return False`, and
`success` to `return True`. -/
inductive BookResult where
  | attendeeNotFound
  | eventNotFound
  | eventFull
  | alreadyBooked
  | success
deriving DecidableEq

/-- Source `book_event`: checks attendee existence, event existence, fullness and
prior registration in that order; on success appends `attendee_id` to the
event's list and `event_id` to the attendee's list. -/
def book_event (s : EventManagementSystem) (attendee_id event_id : String) :
    BookResult × EventManagementSystem :=
  match dictGet attendee_id s.attendees with
  | none => (.attendeeNotFound, s)
  | some attendee =>
    match dictGet event_id s.events with
    | none => (.eventNotFound, s)
    | some event =>
      if event.is_full then (.eventFull, s)
      else if event_id ∈ attendee.registered_events then (.alreadyBooked, s)
      else (.success,
        { events := dictInsert event_id
            { event with registered_attendees := event.registered_attendees ++ [attendee_id] }
            s.events,
          attendees := dictInsert attendee_id
            { attendee with registered_events := attendee.registered_events ++ [event_id] }
            s.attendees })

/-- The outcome of `cancel_booking`; the two failure constructors correspond
to the two distinct error messages printed before `return False`. -/
inductive CancelResult where
  | invalidId
  | bookingNotFound
  | success
deriving DecidableEq

/-- Source `cancel_booking`: rejects when either identifier is unknown, then when
the booking edge is absent; on success removes the first occurrence of each
identifier from the other side's list.  (Python's `list.remove` raises
`ValueError` on a missing element; in every state satisfying the
bidirectional invariant the element is present on both sides, where `remove`
coincides with `List.erase`.) -/
def cancel_booking (s : EventManagementSystem) (attendee_id event_id : String) :
    CancelResult × EventManagementSystem :=
  match dictGet attendee_id s.attendees, dictGet event_id s.events with
  | some attendee, some event =>
    if event_id ∈ attendee.registered_events then
      (.success,
        { events := dictInsert event_id
            { event with registered_attendees := event.registered_attendees.erase attendee_id }
            s.events,
          attendees := dictInsert attendee_id
            { attendee with registered_events := attendee.registered_events.erase event_id }
            s.attendees })
    else (.bookingNotFound, s)
  | _, _ => (.invalidId, s)

/-- Case-insensitive character sequence of a Python string, for `s.lower()`
(the identifiers and keywords involved are ASCII, where `Char.toLower`
agrees with `str.lower`). -/
def lowerChars (s : String) : List Char := s.data.map Char.toLower

def isPrefixCh : List Char → List Char → Bool
  | [], _ => true
  | _ :: _, [] => false
  | a :: as2, b :: bs2 => a == b && isPrefixCh as2 bs2

/-- Substring containment on character lists, modelling Python's
`needle in haystack` for strings. -/
def containsSub (needle : List Char) : List Char → Bool
  | [] => needle.isEmpty
  | b :: bs2 => isPrefixCh needle (b :: bs2) || containsSub needle bs2

/-- The match predicate of `search_events`:
`keyword.lower() in event.title.lower() or keyword.lower() in event.category.lower()`. -/
def matchesKeyword (keyword : String) (event : Event) : Bool :=
  containsSub (lowerChars keyword) (lowerChars event.title) ||
    containsSub (lowerChars keyword) (lowerChars event.category)

/-- Source `search_events`: a linear scan over `self.events.values()` appending
every event whose title or category matches. -/
def search_events (s : EventManagementSystem) (keyword : String) : List Event :=
  (s.events.map Prod.snd).filter (fun event => matchesKeyword keyword event)

/-- The numbers and attendee details printed by `get_event_report`. -/
structure Report where
  capacity : Int
  registeredCount : Nat
  availableSeats : Int
  occupancyRate : ℚ
  attendeeDetails : List (String × String)
deriving DecidableEq

/-- Source `get_event_report`: `none` when the event is unknown (error message) or
when `capacity = 0` (the division `len/capacity` raises `ZeroDivisionError`
in the source).  Float arithmetic is modelled by exact rationals; the
`:.1f` format is display-only. -/
def get_event_report (s : EventManagementSystem) (event_id : String) : Option Report :=
  match dictGet event_id s.events with
  | none => none
  | some event =>
    if event.capacity = 0 then none
    else some
      { capacity := event.capacity
        registeredCount := event.registered_attendees.length
        availableSeats := event.get_available_seats
        occupancyRate := (event.registered_attendees.length : ℚ) / (event.capacity : ℚ) * 100
        attendeeDetails := event.registered_attendees.filterMap (fun att_id =>
          (dictGet att_id s.attendees).map (fun att => (att.name, att.email))) }

/-! ### Persistence (`to_dict` / `from_dict` / `save_data` / `load_data`)

The JSON document written by `json.dump` and read by `json.load`. -/

inductive Json where
  | str (s : String)
  | num (n : Int)
  | arr (xs : List Json)
  | obj (fields : List (String × Json))

/-- Source `Attendee.to_dict`, with the keys in source order. -/
def Attendee.to_dict (a : Attendee) : Json :=
  .obj [("attendee_id", .str a.attendee_id), ("name", .str a.name),
    ("email", .str a.email), ("phone", .str a.phone),
    ("registered_events", .arr (a.registered_events.map .str))]

/-- Source `Event.to_dict`, with the keys in source order. -/
def Event.to_dict (e : Event) : Json :=
  .obj [("event_id", .str e.event_id), ("title", .str e.title),
    ("description", .str e.description), ("date", .str e.date),
    ("time", .str e.time), ("venue", .str e.venue),
    ("capacity", .num e.capacity), ("category", .str e.category),
    ("registered_attendees", .arr (e.registered_attendees.map .str))]

/-- A required string field: `data[k]` (a missing or non-string value makes
the Python constructor call fail, hence `none`). -/
def getStr (k : String) (f : List (String × Json)) : Option String :=
  match dictGet k f with
  | some (.str s) => some s
  | _ => none

/-- A required integer field: `data[k]`. -/
def getNum (k : String) (f : List (String × Json)) : Option Int :=
  match dictGet k f with
  | some (.num n) => some n
  | _ => none

def decodeStrings : List Json → Option (List String)
  | [] => some []
  | .str s :: rest => (decodeStrings rest).map (fun l => s :: l)
  | _ => none

/-- Python `data.get(k, [])`: an absent key defaults to the empty list. -/
def getStrListD (k : String) (f : List (String × Json)) : Option (List String) :=
  match dictGet k f with
  | none => some []
  | some (.arr xs) => decodeStrings xs
  | some _ => none

/-- Source `Attendee.from_dict`. -/
def Attendee.from_dict (j : Json) : Option Attendee :=
  match j with
  | .obj f => do
    let attendee_id ← getStr "attendee_id" f
    let name ← getStr "name" f
    let email ← getStr "email" f
    let phone ← getStr "phone" f
    let registered_events ← getStrListD "registered_events" f
    pure ⟨attendee_id, name, email, phone, registered_events⟩
  | _ => none

/-- Source `Event.from_dict`. -/
def Event.from_dict (j : Json) : Option Event :=
  match j with
  | .obj f => do
    let event_id ← getStr "event_id" f
    let title ← getStr "title" f
    let description ← getStr "description" f
    let date ← getStr "date" f
    let time ← getStr "time" f
    let venue ← getStr "venue" f
    let capacity ← getNum "capacity" f
    let category ← getStr "category" f
    let registered_attendees ← getStrListD "registered_attendees" f
    pure ⟨event_id, title, description, date, time, venue, capacity, category,
      registered_attendees⟩
  | _ => none

/-- Source `save_data`: the document `json.dump` writes —
`{'events': {eid: evt.to_dict() ...}, 'attendees': {aid: att.to_dict() ...}}`. -/
def save_data (s : EventManagementSystem) : Json :=
  .obj [("events", .obj (s.events.map (fun p => (p.1, p.2.to_dict)))),
    ("attendees", .obj (s.attendees.map (fun p => (p.1, p.2.to_dict))))]

/-- The dict comprehensions of `load_data`: decode each value, keeping the
document's keys and order (`none` models the uncaught `KeyError`/`TypeError`
a malformed document raises). -/
def decodePairs {β : Type} (dec : Json → Option β) :
    List (String × Json) → Option (List (String × β))
  | [] => some []
  | (k, j) :: rest =>
    match dec j, decodePairs dec rest with
    | some v, some vs => some ((k, v) :: vs)
    | _, _ => none

/-- The state-rebuilding part of `load_data`: both assignments
`self.events = {...}` and `self.attendees = {...}`. -/
def systemFromDoc (j : Json) : Option EventManagementSystem :=
  match j with
  | .obj f =>
    match dictGet "events" f, dictGet "attendees" f with
    | some (.obj evs), some (.obj atts) =>
      match decodePairs Event.from_dict evs, decodePairs Attendee.from_dict atts with
      | some es, some as2 => some ⟨es, as2⟩
      | _, _ => none
    | _, _ => none
  | _ => none

inductive LoadResult where
  | loaded
  | fileNotFound
deriving DecidableEq

/-- Source `load_data`: the file argument is `none` when opening raises
`FileNotFoundError`, in which case the handler only prints and the system
keeps its current state; otherwise the parsed document replaces the state.
The outer `none` models an uncaught exception from a malformed document. -/
def load_data (s : EventManagementSystem) (file : Option Json) :
    Option (LoadResult × EventManagementSystem) :=
  match file with
  | none => some (.fileNotFound, s)
  | some j => (systemFromDoc j).map (fun s2 => (.loaded, s2))

theorem decodeStrings_map_str (xs : List String) :
    decodeStrings (xs.map .str) = some xs := by
  induction xs with
  | nil => rfl
  | cons x xt ih => simp [decodeStrings, ih]

theorem event_from_dict_to_dict (e : Event) : Event.from_dict e.to_dict = some e := by
  cases e with
  | mk i t d dt tm v c cat regs =>
    simp [Event.to_dict, Event.from_dict, getStr, getNum, getStrListD, dictGet,
      decodeStrings_map_str]

theorem attendee_from_dict_to_dict (a : Attendee) :
    Attendee.from_dict a.to_dict = some a := by
  cases a with
  | mk i n em ph regs =>
    simp [Attendee.to_dict, Attendee.from_dict, getStr, getStrListD, dictGet,
      decodeStrings_map_str]

theorem decodePairs_roundtrip {β : Type} (dec : Json → Option β) (enc : β → Json)
    (hdec : ∀ x, dec (enc x) = some x) (l : List (String × β)) :
    decodePairs dec (l.map (fun p => (p.1, enc p.2))) = some l := by
  induction l with
  | nil => rfl
  | cons p rest ih => simp [decodePairs, hdec, ih]

theorem systemFromDoc_save (s : EventManagementSystem) :
    systemFromDoc (save_data s) = some s := by
  cases s with
  | mk evs atts =>
    simp [save_data, systemFromDoc, dictGet,
      decodePairs_roundtrip Event.from_dict Event.to_dict event_from_dict_to_dict,
      decodePairs_roundtrip Attendee.from_dict Attendee.to_dict attendee_from_dict_to_dict]

/-! ### Branch characterizations of the mutating operations -/

theorem book_event_no_att {s : EventManagementSystem} {attendee_id : String}
    (event_id : String) (ha : dictGet attendee_id s.attendees = none) :
    book_event s attendee_id event_id = (.attendeeNotFound, s) := by
  unfold book_event
  rw [ha]

theorem book_event_no_ev {s : EventManagementSystem} {attendee_id event_id : String}
    {a : Attendee} (ha : dictGet attendee_id s.attendees = some a)
    (he : dictGet event_id s.events = none) :
    book_event s attendee_id event_id = (.eventNotFound, s) := by
  unfold book_event
  rw [ha, he]

theorem book_event_full {s : EventManagementSystem} {attendee_id event_id : String}
    {a : Attendee} {e : Event} (ha : dictGet attendee_id s.attendees = some a)
    (he : dictGet event_id s.events = some e) (hf : e.is_full = true) :
    book_event s attendee_id event_id = (.eventFull, s) := by
  unfold book_event
  rw [ha, he]
  simp [hf]

theorem book_event_already {s : EventManagementSystem} {attendee_id event_id : String}
    {a : Attendee} {e : Event} (ha : dictGet attendee_id s.attendees = some a)
    (he : dictGet event_id s.events = some e) (hf : e.is_full = false)
    (hm : event_id ∈ a.registered_events) :
    book_event s attendee_id event_id = (.alreadyBooked, s) := by
  unfold book_event
  rw [ha, he]
  simp [hf, hm]

theorem book_event_success_eq {s : EventManagementSystem} {attendee_id event_id : String}
    {a : Attendee} {e : Event} (ha : dictGet attendee_id s.attendees = some a)
    (he : dictGet event_id s.events = some e) (hf : e.is_full = false)
    (hm : event_id ∉ a.registered_events) :
    book_event s attendee_id event_id = (.success,
      { events := dictInsert event_id
          { e with registered_attendees := e.registered_attendees ++ [attendee_id] } s.events,
        attendees := dictInsert attendee_id
          { a with registered_events := a.registered_events ++ [event_id] } s.attendees }) := by
  unfold book_event
  rw [ha, he]
  simp [hf, hm]

theorem cancel_booking_no_att {s : EventManagementSystem} {attendee_id : String}
    (event_id : String) (ha : dictGet attendee_id s.attendees = none) :
    cancel_booking s attendee_id event_id = (.invalidId, s) := by
  unfold cancel_booking
  rw [ha]

theorem cancel_booking_no_ev {s : EventManagementSystem} {attendee_id event_id : String}
    {a : Attendee} (ha : dictGet attendee_id s.attendees = some a)
    (he : dictGet event_id s.events = none) :
    cancel_booking s attendee_id event_id = (.invalidId, s) := by
  unfold cancel_booking
  rw [ha, he]

theorem cancel_booking_not_found {s : EventManagementSystem} {attendee_id event_id : String}
    {a : Attendee} {e : Event} (ha : dictGet attendee_id s.attendees = some a)
    (he : dictGet event_id s.events = some e) (hm : event_id ∉ a.registered_events) :
    cancel_booking s attendee_id event_id = (.bookingNotFound, s) := by
  unfold cancel_booking
  rw [ha, he]
  simp [hm]

theorem cancel_booking_success_eq {s : EventManagementSystem} {attendee_id event_id : String}
    {a : Attendee} {e : Event} (ha : dictGet attendee_id s.attendees = some a)
    (he : dictGet event_id s.events = some e) (hm : event_id ∈ a.registered_events) :
    cancel_booking s attendee_id event_id = (.success,
      { events := dictInsert event_id
          { e with registered_attendees := e.registered_attendees.erase attendee_id } s.events,
        attendees := dictInsert attendee_id
          { a with registered_events := a.registered_events.erase event_id } s.attendees }) := by
  unfold cancel_booking
  rw [ha, he]
  simp [hm]

/-! ### Reachable states and the store invariant -/

/-- States reachable from a fresh `EventManagementSystem()` through the four
mutating operations. -/
inductive Reachable : EventManagementSystem → Prop where
  | empty : Reachable emptySystem
  | create (title description date time venue : String) (capacity : Int) (category : String)
      {s : EventManagementSystem} (h : Reachable s) :
      Reachable (create_event s title description date time venue capacity category).2
  | register (name email phone : String) {s : EventManagementSystem} (h : Reachable s) :
      Reachable (register_attendee s name email phone).2
  | book (attendee_id event_id : String) {s : EventManagementSystem} (h : Reachable s) :
      Reachable (book_event s attendee_id event_id).2
  | cancel (attendee_id event_id : String) {s : EventManagementSystem} (h : Reachable s) :
      Reachable (cancel_booking s attendee_id event_id).2

/-- The identifiers generated for the first `n` records. -/
def idList (pfx : String) (n : Nat) : List String :=
  (List.range n).map (fun i => genId pfx (i + 1))

theorem idList_succ (pfx : String) (n : Nat) :
    idList pfx (n + 1) = idList pfx n ++ [genId pfx (n + 1)] := by
  simp [idList, List.range_succ]

theorem genId_succ_not_mem_idList (pfx : String) (n : Nat) :
    genId pfx (n + 1) ∉ idList pfx n := by
  simp only [idList, List.mem_map, List.mem_range]
  rintro ⟨i, hi, hEq⟩
  have := genId_injective (Nat.succ_pos i) (Nat.succ_pos n) hEq
  omega

theorem idList_nodup (pfx : String) (n : Nat) : (idList pfx n).Nodup := by
  refine List.Nodup.map ?_ (List.nodup_range n)
  intro i j hEq
  have := genId_injective (Nat.succ_pos i) (Nat.succ_pos j) hEq
  omega

/-- The conjunction of the structural invariants every reachable store
satisfies: identifier bookkeeping, deduplicated booking lists, the
bidirectional booking relation, referential integrity of both lists, and
the capacity bound (which can only be asserted against the nonnegative part
of the stored capacity because `create_event` accepts any `int`). -/
structure Inv (s : EventManagementSystem) : Prop where
  ev_keys : s.events.map Prod.fst = idList "EVT" s.events.length
  att_keys : s.attendees.map Prod.fst = idList "ATT" s.attendees.length
  ev_key_field : ∀ eid e, dictGet eid s.events = some e → e.event_id = eid
  att_key_field : ∀ aid a, dictGet aid s.attendees = some a → a.attendee_id = aid
  ev_nodup : ∀ eid e, dictGet eid s.events = some e → e.registered_attendees.Nodup
  att_nodup : ∀ aid a, dictGet aid s.attendees = some a → a.registered_events.Nodup
  dual : ∀ aid eid a e, dictGet aid s.attendees = some a → dictGet eid s.events = some e →
    (eid ∈ a.registered_events ↔ aid ∈ e.registered_attendees)
  att_refs : ∀ aid a eid, dictGet aid s.attendees = some a → eid ∈ a.registered_events →
    (dictGet eid s.events).isSome
  ev_refs : ∀ eid e aid, dictGet eid s.events = some e → aid ∈ e.registered_attendees →
    (dictGet aid s.attendees).isSome
  cap_ok : ∀ eid e, dictGet eid s.events = some e →
    (e.registered_attendees.length : Int) ≤ max e.capacity 0

theorem inv_empty : Inv emptySystem := by
  constructor <;> simp [emptySystem, dictGet, idList]

theorem fresh_event_key {s : EventManagementSystem} (h : Inv s) :
    dictGet (genId "EVT" (s.events.length + 1)) s.events = none := by
  rw [dictGet_eq_none_iff, h.ev_keys]
  exact genId_succ_not_mem_idList "EVT" s.events.length

theorem fresh_attendee_key {s : EventManagementSystem} (h : Inv s) :
    dictGet (genId "ATT" (s.attendees.length + 1)) s.attendees = none := by
  rw [dictGet_eq_none_iff, h.att_keys]
  exact genId_succ_not_mem_idList "ATT" s.attendees.length

theorem inv_create {s : EventManagementSystem} (h : Inv s)
    (title description date time venue : String) (capacity : Int) (category : String) :
    Inv (create_event s title description date time venue capacity category).2 := by
  have hnone := fresh_event_key h
  have hfresh : genId "EVT" (s.events.length + 1) ∉ s.events.map Prod.fst :=
    (dictGet_eq_none_iff _ _).mp hnone
  set newK := genId "EVT" (s.events.length + 1) with hK
  set newEv : Event :=
    ⟨newK, title, description, date, time, venue, capacity, category, []⟩ with hEv
  have happend : dictInsert newK newEv s.events = s.events ++ [(newK, newEv)] :=
    dictInsert_of_not_mem newEv hfresh
  have hresult : (create_event s title description date time venue capacity category).2 =
      { s with events := dictInsert newK newEv s.events } := rfl
  rw [hresult]
  constructor
  · show (dictInsert newK newEv s.events).map Prod.fst =
      idList "EVT" (dictInsert newK newEv s.events).length
    rw [happend]
    simp only [List.map_append, List.length_append, List.map_cons, List.map_nil,
      List.length_cons, List.length_nil]
    rw [h.ev_keys, ← idList_succ]
  · exact h.att_keys
  · intro eid e hget
    by_cases heq : eid = newK
    · subst heq
      rw [dictGet_insert_self] at hget
      cases hget
      rfl
    · rw [dictGet_insert_ne newEv s.events heq] at hget
      exact h.ev_key_field eid e hget
  · exact h.att_key_field
  · intro eid e hget
    by_cases heq : eid = newK
    · subst heq
      rw [dictGet_insert_self] at hget
      cases hget
      exact List.nodup_nil
    · rw [dictGet_insert_ne newEv s.events heq] at hget
      exact h.ev_nodup eid e hget
  · exact h.att_nodup
  · intro aid eid a e hga hge
    by_cases heq : eid = newK
    · subst heq
      rw [dictGet_insert_self] at hge
      cases hge
      constructor
      · intro hmem
        have := h.att_refs aid a newK hga hmem
        rw [hnone] at this
        exact absurd this (by simp)
      · intro hmem
        exact absurd hmem (List.not_mem_nil aid)
    · rw [dictGet_insert_ne newEv s.events heq] at hge
      exact h.dual aid eid a e hga hge
  · intro aid a eid hga hmem
    exact dictGet_insert_isSome newEv s.events (h.att_refs aid a eid hga hmem)
  · intro eid e aid hge hmem
    by_cases heq : eid = newK
    · subst heq
      rw [dictGet_insert_self] at hge
      cases hge
      exact absurd hmem (List.not_mem_nil aid)
    · rw [dictGet_insert_ne newEv s.events heq] at hge
      exact h.ev_refs eid e aid hge hmem
  · intro eid e hget
    by_cases heq : eid = newK
    · subst heq
      rw [dictGet_insert_self] at hget
      cases hget
      simp
    · rw [dictGet_insert_ne newEv s.events heq] at hget
      exact h.cap_ok eid e hget

theorem inv_register {s : EventManagementSystem} (h : Inv s) (name email phone : String) :
    Inv (register_attendee s name email phone).2 := by
  have hnone := fresh_attendee_key h
  have hfresh : genId "ATT" (s.attendees.length + 1) ∉ s.attendees.map Prod.fst :=
    (dictGet_eq_none_iff _ _).mp hnone
  set newK := genId "ATT" (s.attendees.length + 1) with hK
  set newAtt : Attendee := ⟨newK, name, email, phone, []⟩ with hAtt
  have happend : dictInsert newK newAtt s.attendees = s.attendees ++ [(newK, newAtt)] :=
    dictInsert_of_not_mem newAtt hfresh
  have hresult : (register_attendee s name email phone).2 =
      { s with attendees := dictInsert newK newAtt s.attendees } := rfl
  rw [hresult]
  constructor
  · exact h.ev_keys
  · show (dictInsert newK newAtt s.attendees).map Prod.fst =
      idList "ATT" (dictInsert newK newAtt s.attendees).length
    rw [happend]
    simp only [List.map_append, List.length_append, List.map_cons, List.map_nil,
      List.length_cons, List.length_nil]
    rw [h.att_keys, ← idList_succ]
  · exact h.ev_key_field
  · intro aid a hget
    by_cases heq : aid = newK
    · subst heq
      rw [dictGet_insert_self] at hget
      cases hget
      rfl
    · rw [dictGet_insert_ne newAtt s.attendees heq] at hget
      exact h.att_key_field aid a hget
  · exact h.ev_nodup
  · intro aid a hget
    by_cases heq : aid = newK
    · subst heq
      rw [dictGet_insert_self] at hget
      cases hget
      exact List.nodup_nil
    · rw [dictGet_insert_ne newAtt s.attendees heq] at hget
      exact h.att_nodup aid a hget
  · intro aid eid a e hga hge
    by_cases heq : aid = newK
    · subst heq
      rw [dictGet_insert_self] at hga
      cases hga
      constructor
      · intro hmem
        exact absurd hmem (List.not_mem_nil eid)
      · intro hmem
        have := h.ev_refs eid e newK hge hmem
        rw [hnone] at this
        exact absurd this (by simp)
    · rw [dictGet_insert_ne newAtt s.attendees heq] at hga
      exact h.dual aid eid a e hga hge
  · intro aid a eid hga hmem
    by_cases heq : aid = newK
    · subst heq
      rw [dictGet_insert_self] at hga
      cases hga
      exact absurd hmem (List.not_mem_nil eid)
    · rw [dictGet_insert_ne newAtt s.attendees heq] at hga
      exact h.att_refs aid a eid hga hmem
  · intro eid e aid hge hmem
    exact dictGet_insert_isSome newAtt s.attendees (h.ev_refs eid e aid hge hmem)
  · exact h.cap_ok

theorem inv_book {s : EventManagementSystem} (h : Inv s) (attendee_id event_id : String) :
    Inv (book_event s attendee_id event_id).2 := by
  cases hga : dictGet attendee_id s.attendees with
  | none =>
    rw [book_event_no_att event_id hga]
    exact h
  | some a =>
    cases hge : dictGet event_id s.events with
    | none =>
      rw [book_event_no_ev hga hge]
      exact h
    | some e =>
      cases hf : e.is_full with
      | true =>
        rw [book_event_full hga hge hf]
        exact h
      | false =>
        by_cases hm : event_id ∈ a.registered_events
        · rw [book_event_already hga hge hf hm]
          exact h
        · rw [book_event_success_eq hga hge hf hm]
          set E2 : Event :=
            { e with registered_attendees := e.registered_attendees ++ [attendee_id] } with hE2
          set A2 : Attendee :=
            { a with registered_events := a.registered_events ++ [event_id] } with hA2
          have hmemE : event_id ∈ s.events.map Prod.fst :=
            (dictGet_isSome_iff_mem _ _).mp (by rw [hge]; rfl)
          have hmemA : attendee_id ∈ s.attendees.map Prod.fst :=
            (dictGet_isSome_iff_mem _ _).mp (by rw [hga]; rfl)
          have hkeysE : (dictInsert event_id E2 s.events).map Prod.fst =
              s.events.map Prod.fst := keys_dictInsert_mem E2 hmemE
          have hkeysA : (dictInsert attendee_id A2 s.attendees).map Prod.fst =
              s.attendees.map Prod.fst := keys_dictInsert_mem A2 hmemA
          have hlenE : (dictInsert event_id E2 s.events).length = s.events.length := by
            have h1 := congrArg List.length hkeysE
            simpa using h1
          have hlenA : (dictInsert attendee_id A2 s.attendees).length =
              s.attendees.length := by
            have h1 := congrArg List.length hkeysA
            simpa using h1
          have hanotin : attendee_id ∉ e.registered_attendees := fun hc =>
            hm ((h.dual attendee_id event_id a e hga hge).mpr hc)
          constructor
          · show (dictInsert event_id E2 s.events).map Prod.fst =
              idList "EVT" (dictInsert event_id E2 s.events).length
            rw [hkeysE, hlenE]
            exact h.ev_keys
          · show (dictInsert attendee_id A2 s.attendees).map Prod.fst =
              idList "ATT" (dictInsert attendee_id A2 s.attendees).length
            rw [hkeysA, hlenA]
            exact h.att_keys
          · intro eid2 e2 hget
            by_cases heq : eid2 = event_id
            · subst heq
              rw [dictGet_insert_self] at hget
              cases hget
              exact h.ev_key_field eid2 e hge
            · rw [dictGet_insert_ne E2 s.events heq] at hget
              exact h.ev_key_field eid2 e2 hget
          · intro aid2 a2 hget
            by_cases heq : aid2 = attendee_id
            · subst heq
              rw [dictGet_insert_self] at hget
              cases hget
              exact h.att_key_field aid2 a hga
            · rw [dictGet_insert_ne A2 s.attendees heq] at hget
              exact h.att_key_field aid2 a2 hget
          · intro eid2 e2 hget
            by_cases heq : eid2 = event_id
            · subst heq
              rw [dictGet_insert_self] at hget
              cases hget
              show (e.registered_attendees ++ [attendee_id]).Nodup
              rw [List.nodup_append]
              refine ⟨h.ev_nodup eid2 e hge, List.nodup_singleton _, ?_⟩
              intro x hx hx2
              rw [List.mem_singleton] at hx2
              exact hanotin (hx2 ▸ hx)
            · rw [dictGet_insert_ne E2 s.events heq] at hget
              exact h.ev_nodup eid2 e2 hget
          · intro aid2 a2 hget
            by_cases heq : aid2 = attendee_id
            · subst heq
              rw [dictGet_insert_self] at hget
              cases hget
              show (a.registered_events ++ [event_id]).Nodup
              rw [List.nodup_append]
              refine ⟨h.att_nodup aid2 a hga, List.nodup_singleton _, ?_⟩
              intro x hx hx2
              rw [List.mem_singleton] at hx2
              exact hm (hx2 ▸ hx)
            · rw [dictGet_insert_ne A2 s.attendees heq] at hget
              exact h.att_nodup aid2 a2 hget
          · intro aid2 eid2 a2 e2 hga2 hge2
            by_cases hA : aid2 = attendee_id <;> by_cases hE : eid2 = event_id
            · subst hA
              subst hE
              rw [dictGet_insert_self] at hga2 hge2
              injection hga2 with hga3
              injection hge2 with hge3
              subst hga3
              subst hge3
              simp
            · subst hA
              rw [dictGet_insert_self] at hga2
              cases hga2
              rw [dictGet_insert_ne E2 s.events hE] at hge2
              have hd := h.dual aid2 eid2 a e2 hga hge2
              show eid2 ∈ a.registered_events ++ [event_id] ↔ aid2 ∈ e2.registered_attendees
              constructor
              · intro hmem2
                rcases List.mem_append.mp hmem2 with h1 | h1
                · exact hd.mp h1
                · exact absurd (List.mem_singleton.mp h1) hE
              · intro hmem2
                exact List.mem_append.mpr (Or.inl (hd.mpr hmem2))
            · subst hE
              rw [dictGet_insert_self] at hge2
              cases hge2
              rw [dictGet_insert_ne A2 s.attendees hA] at hga2
              have hd := h.dual aid2 eid2 a2 e hga2 hge
              show eid2 ∈ a2.registered_events ↔ aid2 ∈ e.registered_attendees ++ [attendee_id]
              constructor
              · intro hmem2
                exact List.mem_append.mpr (Or.inl (hd.mp hmem2))
              · intro hmem2
                rcases List.mem_append.mp hmem2 with h1 | h1
                · exact hd.mpr h1
                · exact absurd (List.mem_singleton.mp h1) hA
            · rw [dictGet_insert_ne A2 s.attendees hA] at hga2
              rw [dictGet_insert_ne E2 s.events hE] at hge2
              exact h.dual aid2 eid2 a2 e2 hga2 hge2
          · intro aid2 a2 eid2 hga2 hmem2
            by_cases hA : aid2 = attendee_id
            · subst hA
              rw [dictGet_insert_self] at hga2
              cases hga2
              rcases List.mem_append.mp hmem2 with h1 | h1
              · exact dictGet_insert_isSome E2 s.events (h.att_refs aid2 a eid2 hga h1)
              · rw [List.mem_singleton] at h1
                subst h1
                rw [dictGet_insert_self]
                rfl
            · rw [dictGet_insert_ne A2 s.attendees hA] at hga2
              exact dictGet_insert_isSome E2 s.events (h.att_refs aid2 a2 eid2 hga2 hmem2)
          · intro eid2 e2 aid2 hge2 hmem2
            by_cases hE : eid2 = event_id
            · subst hE
              rw [dictGet_insert_self] at hge2
              cases hge2
              rcases List.mem_append.mp hmem2 with h1 | h1
              · exact dictGet_insert_isSome A2 s.attendees (h.ev_refs eid2 e aid2 hge h1)
              · rw [List.mem_singleton] at h1
                subst h1
                rw [dictGet_insert_self]
                rfl
            · rw [dictGet_insert_ne E2 s.events hE] at hge2
              exact dictGet_insert_isSome A2 s.attendees (h.ev_refs eid2 e2 aid2 hge2 hmem2)
          · intro eid2 e2 hget
            by_cases heq : eid2 = event_id
            · subst heq
              rw [dictGet_insert_self] at hget
              cases hget
              have hlt : (e.registered_attendees.length : Int) < e.capacity := by
                have hd : decide (e.capacity ≤ (e.registered_attendees.length : Int)) =
                    false := hf
                exact Int.not_le.mp (of_decide_eq_false hd)
              show ((e.registered_attendees ++ [attendee_id]).length : Int) ≤
                max E2.capacity 0
              have hle : (e.registered_attendees.length : Int) + 1 ≤ max e.capacity 0 :=
                le_trans (by omega) (le_max_left _ _)
              simp only [List.length_append, List.length_singleton]
              push_cast
              exact hle
            · rw [dictGet_insert_ne E2 s.events heq] at hget
              exact h.cap_ok eid2 e2 hget

theorem inv_cancel {s : EventManagementSystem} (h : Inv s) (attendee_id event_id : String) :
    Inv (cancel_booking s attendee_id event_id).2 := by
  cases hga : dictGet attendee_id s.attendees with
  | none =>
    rw [cancel_booking_no_att event_id hga]
    exact h
  | some a =>
    cases hge : dictGet event_id s.events with
    | none =>
      rw [cancel_booking_no_ev hga hge]
      exact h
    | some e =>
      by_cases hm : event_id ∈ a.registered_events
      · rw [cancel_booking_success_eq hga hge hm]
        set E2 : Event :=
          { e with registered_attendees := e.registered_attendees.erase attendee_id } with hE2
        set A2 : Attendee :=
          { a with registered_events := a.registered_events.erase event_id } with hA2
        have hmemE : event_id ∈ s.events.map Prod.fst :=
          (dictGet_isSome_iff_mem _ _).mp (by rw [hge]; rfl)
        have hmemA : attendee_id ∈ s.attendees.map Prod.fst :=
          (dictGet_isSome_iff_mem _ _).mp (by rw [hga]; rfl)
        have hkeysE : (dictInsert event_id E2 s.events).map Prod.fst =
            s.events.map Prod.fst := keys_dictInsert_mem E2 hmemE
        have hkeysA : (dictInsert attendee_id A2 s.attendees).map Prod.fst =
            s.attendees.map Prod.fst := keys_dictInsert_mem A2 hmemA
        have hlenE : (dictInsert event_id E2 s.events).length = s.events.length := by
          have h1 := congrArg List.length hkeysE
          simpa using h1
        have hlenA : (dictInsert attendee_id A2 s.attendees).length =
            s.attendees.length := by
          have h1 := congrArg List.length hkeysA
          simpa using h1
        constructor
        · show (dictInsert event_id E2 s.events).map Prod.fst =
            idList "EVT" (dictInsert event_id E2 s.events).length
          rw [hkeysE, hlenE]
          exact h.ev_keys
        · show (dictInsert attendee_id A2 s.attendees).map Prod.fst =
            idList "ATT" (dictInsert attendee_id A2 s.attendees).length
          rw [hkeysA, hlenA]
          exact h.att_keys
        · intro eid2 e2 hget
          by_cases heq : eid2 = event_id
          · subst heq
            rw [dictGet_insert_self] at hget
            cases hget
            exact h.ev_key_field eid2 e hge
          · rw [dictGet_insert_ne E2 s.events heq] at hget
            exact h.ev_key_field eid2 e2 hget
        · intro aid2 a2 hget
          by_cases heq : aid2 = attendee_id
          · subst heq
            rw [dictGet_insert_self] at hget
            cases hget
            exact h.att_key_field aid2 a hga
          · rw [dictGet_insert_ne A2 s.attendees heq] at hget
            exact h.att_key_field aid2 a2 hget
        · intro eid2 e2 hget
          by_cases heq : eid2 = event_id
          · subst heq
            rw [dictGet_insert_self] at hget
            cases hget
            exact (h.ev_nodup eid2 e hge).erase attendee_id
          · rw [dictGet_insert_ne E2 s.events heq] at hget
            exact h.ev_nodup eid2 e2 hget
        · intro aid2 a2 hget
          by_cases heq : aid2 = attendee_id
          · subst heq
            rw [dictGet_insert_self] at hget
            cases hget
            exact (h.att_nodup aid2 a hga).erase event_id
          · rw [dictGet_insert_ne A2 s.attendees heq] at hget
            exact h.att_nodup aid2 a2 hget
        · intro aid2 eid2 a2 e2 hga2 hge2
          by_cases hA : aid2 = attendee_id <;> by_cases hE : eid2 = event_id
          · subst hA
            subst hE
            rw [dictGet_insert_self] at hga2 hge2
            injection hga2 with hga3
            injection hge2 with hge3
            subst hga3
            subst hge3
            show eid2 ∈ a.registered_events.erase eid2 ↔
              aid2 ∈ e.registered_attendees.erase aid2
            constructor
            · intro hmem2
              exact absurd
                ((List.Nodup.mem_erase_iff (h.att_nodup aid2 a hga)).mp hmem2).1 (by simp)
            · intro hmem2
              exact absurd
                ((List.Nodup.mem_erase_iff (h.ev_nodup eid2 e hge)).mp hmem2).1 (by simp)
          · subst hA
            rw [dictGet_insert_self] at hga2
            injection hga2 with hga3
            subst hga3
            rw [dictGet_insert_ne E2 s.events hE] at hge2
            have hd := h.dual aid2 eid2 a e2 hga hge2
            show eid2 ∈ a.registered_events.erase event_id ↔ aid2 ∈ e2.registered_attendees
            rw [List.Nodup.mem_erase_iff (h.att_nodup aid2 a hga)]
            constructor
            · intro hmem2
              exact hd.mp hmem2.2
            · intro hmem2
              exact ⟨hE, hd.mpr hmem2⟩
          · subst hE
            rw [dictGet_insert_self] at hge2
            injection hge2 with hge3
            subst hge3
            rw [dictGet_insert_ne A2 s.attendees hA] at hga2
            have hd := h.dual aid2 eid2 a2 e hga2 hge
            show eid2 ∈ a2.registered_events ↔ aid2 ∈ e.registered_attendees.erase attendee_id
            rw [List.Nodup.mem_erase_iff (h.ev_nodup eid2 e hge)]
            constructor
            · intro hmem2
              exact ⟨hA, hd.mp hmem2⟩
            · intro hmem2
              exact hd.mpr hmem2.2
          · rw [dictGet_insert_ne A2 s.attendees hA] at hga2
            rw [dictGet_insert_ne E2 s.events hE] at hge2
            exact h.dual aid2 eid2 a2 e2 hga2 hge2
        · intro aid2 a2 eid2 hga2 hmem2
          by_cases hA : aid2 = attendee_id
          · subst hA
            rw [dictGet_insert_self] at hga2
            injection hga2 with hga3
            subst hga3
            have h1 : eid2 ∈ a.registered_events := List.mem_of_mem_erase hmem2
            exact dictGet_insert_isSome E2 s.events (h.att_refs aid2 a eid2 hga h1)
          · rw [dictGet_insert_ne A2 s.attendees hA] at hga2
            exact dictGet_insert_isSome E2 s.events (h.att_refs aid2 a2 eid2 hga2 hmem2)
        · intro eid2 e2 aid2 hge2 hmem2
          by_cases hE : eid2 = event_id
          · subst hE
            rw [dictGet_insert_self] at hge2
            injection hge2 with hge3
            subst hge3
            have h1 : aid2 ∈ e.registered_attendees := List.mem_of_mem_erase hmem2
            exact dictGet_insert_isSome A2 s.attendees (h.ev_refs eid2 e aid2 hge h1)
          · rw [dictGet_insert_ne E2 s.events hE] at hge2
            exact dictGet_insert_isSome A2 s.attendees (h.ev_refs eid2 e2 aid2 hge2 hmem2)
        · intro eid2 e2 hget
          by_cases heq : eid2 = event_id
          · subst heq
            rw [dictGet_insert_self] at hget
            injection hget with hget2
            subst hget2
            show ((e.registered_attendees.erase attendee_id).length : Int) ≤
              max E2.capacity 0
            have h1 : (e.registered_attendees.erase attendee_id).length ≤
                e.registered_attendees.length :=
              (List.erase_sublist _ _).length_le
            have h2 : ((e.registered_attendees.erase attendee_id).length : Int) ≤
                (e.registered_attendees.length : Int) := by exact_mod_cast h1
            exact le_trans h2 (h.cap_ok eid2 e hge)
          · rw [dictGet_insert_ne E2 s.events heq] at hget
            exact h.cap_ok eid2 e2 hget
      · rw [cancel_booking_not_found hga hge hm]
        exact h

theorem inv_reachable {s : EventManagementSystem} (h : Reachable s) : Inv s := by
  induction h with
  | empty => exact inv_empty
  | create title description date time venue capacity category h ih =>
    exact inv_create ih title description date time venue capacity category
  | register name email phone h ih => exact inv_register ih name email phone
  | book attendee_id event_id h ih => exact inv_book ih attendee_id event_id
  | cancel attendee_id event_id h ih => exact inv_cancel ih attendee_id event_id

theorem book_event_fail_eq {s : EventManagementSystem} {attendee_id event_id : String}
    (hfail : (book_event s attendee_id event_id).1 ≠ .success) :
    (book_event s attendee_id event_id).2 = s := by
  cases hga : dictGet attendee_id s.attendees with
  | none => rw [book_event_no_att event_id hga]
  | some a =>
    cases hge : dictGet event_id s.events with
    | none => rw [book_event_no_ev hga hge]
    | some e =>
      cases hf : e.is_full with
      | true => rw [book_event_full hga hge hf]
      | false =>
        by_cases hm : event_id ∈ a.registered_events
        · rw [book_event_already hga hge hf hm]
        · rw [book_event_success_eq hga hge hf hm] at hfail
          exact absurd rfl hfail

theorem cancel_booking_fail_eq {s : EventManagementSystem} {attendee_id event_id : String}
    (hfail : (cancel_booking s attendee_id event_id).1 ≠ .success) :
    (cancel_booking s attendee_id event_id).2 = s := by
  cases hga : dictGet attendee_id s.attendees with
  | none => rw [cancel_booking_no_att event_id hga]
  | some a =>
    cases hge : dictGet event_id s.events with
    | none => rw [cancel_booking_no_ev hga hge]
    | some e =>
      by_cases hm : event_id ∈ a.registered_events
      · rw [cancel_booking_success_eq hga hge hm] at hfail
        exact absurd rfl hfail
      · rw [cancel_booking_not_found hga hge hm]

theorem events_values_nodup {s : EventManagementSystem} (h : Inv s) :
    (s.events.map Prod.snd).Nodup := by
  have hkeys : (s.events.map Prod.fst).Nodup := by
    rw [h.ev_keys]
    exact idList_nodup "EVT" s.events.length
  have hmap : s.events.map (fun p => p.2.event_id) = s.events.map Prod.fst :=
    List.map_congr_left
      (fun p hp => h.ev_key_field p.1 p.2 (dictGet_of_mem_of_nodup hkeys hp))
  have h2 : ((s.events.map Prod.snd).map Event.event_id).Nodup := by
    rw [List.map_map]
    have hcomp : (Event.event_id ∘ Prod.snd) =
        (fun p : String × Event => p.2.event_id) := rfl
    rw [hcomp, hmap]
    exact hkeys
  exact List.Nodup.of_map _ h2

/-! ### Sample stores used by witnesses -/

def sEx1 : EventManagementSystem :=
  (create_event emptySystem "Tech Conference 2025" "Annual technology conference"
    "2025-12-15" "09:00 AM" "Convention Center" 2 "Technology").2

def sEx2 : EventManagementSystem :=
  (register_attendee sEx1 "Alice" "alice@example.com" "123").2

def sEx3 : EventManagementSystem := (book_event sEx2 "ATT0001" "EVT0001").2

def evEx0 : Event := ⟨"EVT0001", "Tech Conference 2025", "Annual technology conference",
  "2025-12-15", "09:00 AM", "Convention Center", 2, "Technology", []⟩

def evEx : Event := ⟨"EVT0001", "Tech Conference 2025", "Annual technology conference",
  "2025-12-15", "09:00 AM", "Convention Center", 2, "Technology", ["ATT0001"]⟩

def attEx0 : Attendee := ⟨"ATT0001", "Alice", "alice@example.com", "123", []⟩

def attEx : Attendee := ⟨"ATT0001", "Alice", "alice@example.com", "123", ["EVT0001"]⟩

theorem reach_sEx1 : Reachable sEx1 :=
  Reachable.create "Tech Conference 2025" "Annual technology conference" "2025-12-15"
    "09:00 AM" "Convention Center" 2 "Technology" Reachable.empty

theorem reach_sEx2 : Reachable sEx2 :=
  Reachable.register "Alice" "alice@example.com" "123" reach_sEx1

theorem reach_sEx3 : Reachable sEx3 := Reachable.book "ATT0001" "EVT0001" reach_sEx2

/-! ### Claim theorems -/

/-- C1: in every store reachable from the empty store via `create_event`,
`register_attendee`, `book_event` and `cancel_booking`, for every attendee
and every event in the store, the event's identifier appears in the
attendee's `registered_events` list iff the attendee's identifier appears
in the event's `registered_attendees` list. -/
theorem bidirectional_booking_invariant (s : EventManagementSystem) (hreach : Reachable s)
    (attendee_id event_id : String) (a : Attendee) (e : Event)
    (ha : dictGet attendee_id s.attendees = some a)
    (he : dictGet event_id s.events = some e) :
    e.event_id ∈ a.registered_events ↔ a.attendee_id ∈ e.registered_attendees := by
  have h := inv_reachable hreach
  rw [h.ev_key_field event_id e he, h.att_key_field attendee_id a ha]
  exact h.dual attendee_id event_id a e ha he

theorem bidirectional_booking_invariant_witness :
    evEx.event_id ∈ attEx.registered_events ↔
      attEx.attendee_id ∈ evEx.registered_attendees :=
  bidirectional_booking_invariant sEx3 reach_sEx3 "ATT0001" "EVT0001" attEx evEx
    (by decide) (by decide)

def sNeg : EventManagementSystem :=
  (create_event emptySystem "Neg" "d" "2025-01-01" "10:00" "v" (-1) "c").2

def evNeg : Event := ⟨"EVT0001", "Neg", "d", "2025-01-01", "10:00", "v", -1, "c", []⟩

/-- C2 counterexample: `create_event` accepts a negative capacity (the code
performs no validation), and the resulting reachable store contains an event
whose booking count `0` already exceeds its capacity `-1`, refuting
`len(registered_attendees) <= capacity` as stated. -/
theorem capacity_bound_counterexample :
    Reachable sNeg ∧ dictGet "EVT0001" sNeg.events = some evNeg ∧
      ¬((evNeg.registered_attendees.length : Int) ≤ evNeg.capacity) :=
  ⟨Reachable.create "Neg" "d" "2025-01-01" "10:00" "v" (-1) "c" Reachable.empty,
    by decide, by decide⟩

/-- C2 (amended): in every reachable store, every event with nonnegative
capacity satisfies `len(registered_attendees) <= capacity` (equivalently,
the booking count is bounded by `max capacity 0` in general), and
`book_event` invoked with an existing attendee on an existing full event
fails with `eventFull`, leaving the store unmodified. -/
theorem capacity_never_exceeded (s : EventManagementSystem) :
    (Reachable s → ∀ event_id e, dictGet event_id s.events = some e →
      0 ≤ e.capacity → (e.registered_attendees.length : Int) ≤ e.capacity) ∧
    (∀ attendee_id event_id a e, dictGet attendee_id s.attendees = some a →
      dictGet event_id s.events = some e → e.is_full = true →
      book_event s attendee_id event_id = (.eventFull, s)) := by
  constructor
  · intro hreach event_id e hget hcap
    have h1 := (inv_reachable hreach).cap_ok event_id e hget
    rw [max_eq_left hcap] at h1
    exact h1
  · intro attendee_id event_id a e ha he hf
    exact book_event_full ha he hf

def sF1 : EventManagementSystem := (create_event emptySystem "T" "d" "dt" "tm" "v" 1 "c").2

def sF2 : EventManagementSystem := (register_attendee sF1 "A" "a@x" "1").2

def sF3 : EventManagementSystem := (register_attendee sF2 "B" "b@x" "2").2

def sF4 : EventManagementSystem := (book_event sF3 "ATT0001" "EVT0001").2

theorem capacity_never_exceeded_witness :
    (evEx.registered_attendees.length : Int) ≤ evEx.capacity ∧
      book_event sF4 "ATT0002" "EVT0001" = (.eventFull, sF4) :=
  ⟨(capacity_never_exceeded sEx3).1 reach_sEx3 "EVT0001" evEx (by decide) (by decide),
    (capacity_never_exceeded sF4).2 "ATT0002" "EVT0001" ⟨"ATT0002", "B", "b@x", "2", []⟩
      ⟨"EVT0001", "T", "d", "dt", "tm", "v", 1, "c", ["ATT0001"]⟩
      (by decide) (by decide) (by decide)⟩

/-- C3: whenever `book_event` or `cancel_booking` returns a failure (any
result other than `success`), the store after the call is exactly the store
before the call. -/
theorem rejected_mutations_are_noops (s : EventManagementSystem)
    (attendee_id event_id : String) :
    ((book_event s attendee_id event_id).1 ≠ .success →
      (book_event s attendee_id event_id).2 = s) ∧
    ((cancel_booking s attendee_id event_id).1 ≠ .success →
      (cancel_booking s attendee_id event_id).2 = s) :=
  ⟨fun hfail => book_event_fail_eq hfail, fun hfail => cancel_booking_fail_eq hfail⟩

theorem rejected_mutations_are_noops_witness :
    (book_event sEx3 "ATT0001" "EVT0001").2 = sEx3 ∧
      (cancel_booking sEx3 "ATT0001" "EVT0002").2 = sEx3 :=
  ⟨(rejected_mutations_are_noops sEx3 "ATT0001" "EVT0001").1 (by decide),
    (rejected_mutations_are_noops sEx3 "ATT0001" "EVT0002").2 (by decide)⟩

/-- C4: `book_event` reports `attendeeNotFound` exactly when the attendee is
unknown; `eventNotFound` exactly when the attendee exists and the event is
unknown; with both records present, `eventFull` exactly when the event is
full, `alreadyBooked` exactly when it is not full and the edge already
exists, and `success` exactly when all four checks pass, in which case the
attendee identifier is appended to the event's list and the event identifier
to the attendee's list. -/
theorem book_event_check_order (s : EventManagementSystem)
    (attendee_id event_id : String) :
    ((book_event s attendee_id event_id).1 = .attendeeNotFound ↔
      dictGet attendee_id s.attendees = none) ∧
    ((book_event s attendee_id event_id).1 = .eventNotFound ↔
      (dictGet attendee_id s.attendees).isSome ∧ dictGet event_id s.events = none) ∧
    (∀ a e, dictGet attendee_id s.attendees = some a →
      dictGet event_id s.events = some e →
      (((book_event s attendee_id event_id).1 = .eventFull ↔ e.is_full = true) ∧
        ((book_event s attendee_id event_id).1 = .alreadyBooked ↔
          e.is_full = false ∧ event_id ∈ a.registered_events) ∧
        ((book_event s attendee_id event_id).1 = .success ↔
          e.is_full = false ∧ event_id ∉ a.registered_events) ∧
        ((book_event s attendee_id event_id).1 = .success →
          book_event s attendee_id event_id = (.success,
            { events := dictInsert event_id
                { e with registered_attendees := e.registered_attendees ++ [attendee_id] }
                s.events,
              attendees := dictInsert attendee_id
                { a with registered_events := a.registered_events ++ [event_id] }
                s.attendees })))) := by
  cases hga : dictGet attendee_id s.attendees with
  | none =>
    rw [book_event_no_att event_id hga]
    exact ⟨by simp, by simp, fun a e h1 h2 => by cases h1⟩
  | some a0 =>
    cases hge : dictGet event_id s.events with
    | none =>
      rw [book_event_no_ev hga hge]
      exact ⟨by simp, by simp, fun a e h1 h2 => by cases h2⟩
    | some e0 =>
      have hsome : ∀ (a : Attendee) (e : Event), some a0 = some a → some e0 = some e →
          a = a0 ∧ e = e0 := by
        intro a e h1 h2
        injection h1 with h1
        injection h2 with h2
        exact ⟨h1.symm, h2.symm⟩
      cases hf : e0.is_full with
      | true =>
        rw [book_event_full hga hge hf]
        refine ⟨by simp, by simp, fun a e h1 h2 => ?_⟩
        obtain ⟨rfl, rfl⟩ := hsome a e h1 h2
        simp [hf]
      | false =>
        by_cases hm : event_id ∈ a0.registered_events
        · rw [book_event_already hga hge hf hm]
          refine ⟨by simp, by simp, fun a e h1 h2 => ?_⟩
          obtain ⟨rfl, rfl⟩ := hsome a e h1 h2
          simp [hf, hm]
        · rw [book_event_success_eq hga hge hf hm]
          refine ⟨by simp, by simp, fun a e h1 h2 => ?_⟩
          obtain ⟨rfl, rfl⟩ := hsome a e h1 h2
          simp [hf, hm]

theorem book_event_check_order_witness :
    (book_event sEx2 "ATT0001" "EVT0001").1 = BookResult.success :=
  (((book_event_check_order sEx2 "ATT0001" "EVT0001").2.2 attEx0 evEx0
    (by decide) (by decide)).2.2.1).mpr ⟨by decide, by decide⟩

/-- C5: serializing any store and deserializing the resulting document yields
exactly the original store (same key sets, same field values, same list
order); a parsed document fully replaces the in-memory state regardless of
the prior state; and a record document lacking its booking-list key decodes
to a record with an empty list. -/
theorem serialize_deserialize_roundtrip :
    (∀ s : EventManagementSystem, systemFromDoc (save_data s) = some s) ∧
    (∀ s1 s2 s3 : EventManagementSystem, ∀ doc : Json, systemFromDoc doc = some s3 →
      load_data s1 (some doc) = some (.loaded, s3) ∧
        load_data s2 (some doc) = some (.loaded, s3)) ∧
    (∀ f e, dictGet "registered_attendees" f = none →
      Event.from_dict (.obj f) = some e → e.registered_attendees = []) ∧
    (∀ f a, dictGet "registered_events" f = none →
      Attendee.from_dict (.obj f) = some a → a.registered_events = []) := by
  refine ⟨systemFromDoc_save, ?_, ?_, ?_⟩
  · intro s1 s2 s3 doc h
    constructor <;> simp [load_data, h]
  · intro f e hnone hdec
    have hlist : getStrListD "registered_attendees" f = some [] := by
      unfold getStrListD
      rw [hnone]
    simp only [Event.from_dict, hlist, Option.bind_eq_bind, Option.bind_eq_some,
      Option.pure_def, Option.some.injEq] at hdec
    obtain ⟨i, hi, t, ht, d, hd, dt, hdt, tm, htm, v, hv, c, hc, cat, hcat, l, hl, he⟩ := hdec
    rw [← he]
    exact hl.symm
  · intro f a hnone hdec
    have hlist : getStrListD "registered_events" f = some [] := by
      unfold getStrListD
      rw [hnone]
    simp only [Attendee.from_dict, hlist, Option.bind_eq_bind, Option.bind_eq_some,
      Option.pure_def, Option.some.injEq] at hdec
    obtain ⟨i, hi, n, hn, em, hem, ph, hph, l, hl, he⟩ := hdec
    rw [← he]
    exact hl.symm

theorem serialize_deserialize_roundtrip_witness :
    systemFromDoc (save_data sEx3) = some sEx3 ∧
      Event.from_dict (.obj [("event_id", .str "E"), ("title", .str "t"),
        ("description", .str "d"), ("date", .str "dt"), ("time", .str "tm"),
        ("venue", .str "v"), ("capacity", .num 3), ("category", .str "c")]) =
        some ⟨"E", "t", "d", "dt", "tm", "v", 3, "c", []⟩ := by
  refine ⟨serialize_deserialize_roundtrip.1 sEx3, ?_⟩
  have hd : Event.from_dict (.obj [("event_id", .str "E"), ("title", .str "t"),
      ("description", .str "d"), ("date", .str "dt"), ("time", .str "tm"),
      ("venue", .str "v"), ("capacity", .num 3), ("category", .str "c")]) =
      some ⟨"E", "t", "d", "dt", "tm", "v", 3, "c", []⟩ := by decide
  have h2 := serialize_deserialize_roundtrip.2.2.1
    [("event_id", Json.str "E"), ("title", Json.str "t"), ("description", Json.str "d"),
      ("date", Json.str "dt"), ("time", Json.str "tm"), ("venue", Json.str "v"),
      ("capacity", Json.num 3), ("category", Json.str "c")]
    ⟨"E", "t", "d", "dt", "tm", "v", 3, "c", []⟩ rfl hd
  exact hd

def sNonEmpty : EventManagementSystem := sEx1

/-- C6 counterexample: `load_data` on a missing file does not clear the
store — called on a store that already contains an event, the store after
the call still contains that event, refuting "after the call the store
contains no events". -/
theorem load_missing_counterexample :
    load_data sEx1 none = some (.fileNotFound, sEx1) ∧ sEx1.events ≠ [] :=
  ⟨rfl, by decide⟩

/-- C6 (amended): loading from a missing file is not an error: `load_data`
reports the file-not-found condition and leaves the store exactly as it was
(so a store that was empty before the call — the fresh-start scenario —
still contains no events and no attendees afterwards). -/
theorem load_missing_file_keeps_state (s : EventManagementSystem) :
    load_data s none = some (.fileNotFound, s) ∧
      load_data emptySystem none = some (.fileNotFound, emptySystem) ∧
      emptySystem.events = [] ∧ emptySystem.attendees = [] :=
  ⟨rfl, rfl, rfl, rfl⟩

def sBad : EventManagementSystem :=
  ⟨[("EVT0002", ⟨"EVT0002", "t", "d", "dt", "tm", "v", 5, "c", []⟩)], []⟩

/-- C7 counterexample: on an arbitrary store (reachable in the full program
through `load_data` of a document whose key numbering has gaps) the
count-derived identifier is not fresh: with one event stored under key
`EVT0002`, `create_event` generates `EVT0002` again, which is already
present — the new identifier is not distinct from every existing one. -/
theorem identifier_unique_counterexample :
    (create_event sBad "x" "x" "x" "x" "x" 1 "x").1 = "EVT0002" ∧
      "EVT0002" ∈ sBad.events.map Prod.fst :=
  ⟨by decide, by decide⟩

/-- C7 (amended): `create_event` always succeeds and returns the identifier
`EVT` followed by the zero-padded (minimum width 4) decimal value of the
prior event count + 1, storing under it a new event with an empty booking
list; `register_attendee` is symmetric with the `ATT` namespace; and in
every store reachable from the empty store via the four operations the
generated identifier is distinct from every identifier already present. -/
theorem identifier_generation (s : EventManagementSystem) :
    (∀ title description date time venue capacity category,
      (create_event s title description date time venue capacity category).1 =
        genId "EVT" (s.events.length + 1) ∧
      dictGet (genId "EVT" (s.events.length + 1))
          (create_event s title description date time venue capacity category).2.events =
        some ⟨genId "EVT" (s.events.length + 1), title, description, date, time, venue,
          capacity, category, []⟩) ∧
    (∀ name email phone,
      (register_attendee s name email phone).1 = genId "ATT" (s.attendees.length + 1) ∧
      dictGet (genId "ATT" (s.attendees.length + 1))
          (register_attendee s name email phone).2.attendees =
        some ⟨genId "ATT" (s.attendees.length + 1), name, email, phone, []⟩) ∧
    (Reachable s →
      dictGet (genId "EVT" (s.events.length + 1)) s.events = none ∧
      dictGet (genId "ATT" (s.attendees.length + 1)) s.attendees = none) := by
  refine ⟨?_, ?_, ?_⟩
  · intro title description date time venue capacity category
    exact ⟨rfl, dictGet_insert_self _ _ _⟩
  · intro name email phone
    exact ⟨rfl, dictGet_insert_self _ _ _⟩
  · intro hreach
    have h := inv_reachable hreach
    exact ⟨fresh_event_key h, fresh_attendee_key h⟩

theorem identifier_generation_witness :
    (create_event emptySystem "T" "D" "dt" "tm" "v" 5 "c").1 = "EVT0001" ∧
      dictGet (genId "EVT" (sEx3.events.length + 1)) sEx3.events = none := by
  constructor
  · rw [((identifier_generation emptySystem).1 "T" "D" "dt" "tm" "v" 5 "c").1]
    decide
  · exact ((identifier_generation sEx3).2.2 reach_sEx3).1

/-- C8: `search_events` returns exactly the stored events whose title or
category contains the keyword case-insensitively, in the store's insertion
order (it is the order-preserving filter of the value sequence, hence a
sublist of it), and on a reachable store each matching event appears exactly
once in the result. -/
theorem search_events_spec (s : EventManagementSystem) (keyword : String)
    (hreach : Reachable s) :
    search_events s keyword =
      (s.events.map Prod.snd).filter (fun e => matchesKeyword keyword e) ∧
    (∀ e, e ∈ search_events s keyword ↔
      e ∈ s.events.map Prod.snd ∧ matchesKeyword keyword e = true) ∧
    List.Sublist (search_events s keyword) (s.events.map Prod.snd) ∧
    (∀ e, e ∈ search_events s keyword → (search_events s keyword).count e = 1) := by
  refine ⟨rfl, ?_, ?_, ?_⟩
  · intro e
    simp [search_events, List.mem_filter]
  · exact List.filter_sublist _
  · intro e he
    have hnd : (search_events s keyword).Nodup :=
      (events_values_nodup (inv_reachable hreach)).filter _
    exact List.count_eq_one_of_mem hnd he

theorem search_events_spec_witness :
    (search_events sEx1 "tech").count evEx0 = 1 :=
  (search_events_spec sEx1 "tech" reach_sEx1).2.2.2 evEx0 (by decide)

/-- C9: when the event exists and its capacity is nonzero (the source
raises `ZeroDivisionError` otherwise), `get_event_report` reports
`occupancyRate = registeredCount / capacity * 100`; in particular an event
with capacity 200 and 50 booked attendees reports exactly 25. -/
theorem occupancy_rate_formula (s : EventManagementSystem) (event_id : String) (e : Event)
    (he : dictGet event_id s.events = some e) (hcap : e.capacity ≠ 0) :
    ∃ r, get_event_report s event_id = some r ∧
      r.occupancyRate = (e.registered_attendees.length : ℚ) / (e.capacity : ℚ) * 100 ∧
      (e.capacity = 200 → e.registered_attendees.length = 50 → r.occupancyRate = 25) := by
  have hrep : get_event_report s event_id = some
      { capacity := e.capacity
        registeredCount := e.registered_attendees.length
        availableSeats := e.get_available_seats
        occupancyRate := (e.registered_attendees.length : ℚ) / (e.capacity : ℚ) * 100
        attendeeDetails := e.registered_attendees.filterMap (fun att_id =>
          (dictGet att_id s.attendees).map (fun att => (att.name, att.email))) } := by
    unfold get_event_report
    rw [he]
    simp [hcap]
  refine ⟨_, hrep, rfl, fun h200 h50 => ?_⟩
  show (e.registered_attendees.length : ℚ) / (e.capacity : ℚ) * 100 = 25
  rw [h200, h50]
  norm_num

def evRep : Event := ⟨"EVT0001", "Big", "d", "dt", "tm", "v", 200, "c",
  List.replicate 50 "x"⟩

def sRep : EventManagementSystem := ⟨[("EVT0001", evRep)], []⟩

theorem occupancy_rate_formula_witness :
    ∃ r, get_event_report sRep "EVT0001" = some r ∧ r.occupancyRate = 25 := by
  obtain ⟨r, h1, h2, h3⟩ :=
    occupancy_rate_formula sRep "EVT0001" evRep (by decide) (by decide)
  exact ⟨r, h1, h3 (by decide) (by decide)⟩

/-- C10: an event whose stored capacity is ≤ 0 is permanently unbookable:
`is_full` is already true (whatever the booking list, including empty), so
for any existing attendee `book_event` takes the `eventFull` branch and
leaves the store unchanged. -/
theorem nonpositive_capacity_unbookable (s : EventManagementSystem)
    (attendee_id event_id : String) (a : Attendee) (e : Event)
    (ha : dictGet attendee_id s.attendees = some a)
    (he : dictGet event_id s.events = some e) (hcap : e.capacity ≤ 0) :
    e.is_full = true ∧ book_event s attendee_id event_id = (.eventFull, s) := by
  have hfull : e.is_full = true := by
    unfold Event.is_full
    rw [decide_eq_true_eq]
    exact le_trans hcap (Int.natCast_nonneg _)
  exact ⟨hfull, book_event_full ha he hfull⟩

def sZero1 : EventManagementSystem :=
  (create_event emptySystem "Z" "d" "dt" "tm" "v" 0 "c").2

def sZero2 : EventManagementSystem := (register_attendee sZero1 "A" "a@x" "1").2

theorem nonpositive_capacity_unbookable_witness :
    book_event sZero2 "ATT0001" "EVT0001" = (.eventFull, sZero2) :=
  (nonpositive_capacity_unbookable sZero2 "ATT0001" "EVT0001"
    ⟨"ATT0001", "A", "a@x", "1", []⟩ ⟨"EVT0001", "Z", "d", "dt", "tm", "v", 0, "c", []⟩
    (by decide) (by decide) (by decide)).2

end EMS
